import Mathlib

/-!
Shallow embedding of `Final_working-email5.py` (AirMailXSender).

The embedded core consists of:
* the recipient parser `parse_receivers` (source lines 121-147), including the
  loose email-shape regex `EMAIL_RE = ^[^@\s]+@[^@\s]+\.[^@\s]+$` (line 32);
* the bulk-send worker `send_bulk_emails` (source lines 60-116), with the
  underlying SMTP transport modelled as an oracle (`SmtpBehavior`) that says,
  for each protocol operation, whether it returns normally or raises, and
  supplies the unit-interval draws consumed by `random.uniform`;
* the settings-update part of `API.send_emails` (source lines 152-175).

Python floats are modelled as rationals (`ℚ`); `float(x)` conversion of a
configured delay field is modelled by storing the field as `Option ℚ`
(`some q` when the conversion succeeds, `none` when `float` raises).
Log lines are modelled as a structured `LogEvent` per f-string of the source;
whitespace and lower-casing are modelled over the ASCII range, which covers
every string the claims exercise.
-/

/-- Characters of the Python regex class `[,\n;]` on which `parse_receivers`
splits its input (source line 129). -/
def isDelim (c : Char) : Bool := c = ',' || c = '\n' || c = ';'

/-- Whitespace as used by `str.strip()` and the regex class `\s`
(ASCII range). -/
def wsChar (c : Char) : Bool :=
  c = ' ' || c = '\t' || c = '\n' || c = '\r' || c = '\x0b' || c = '\x0c'

/-- Characters admitted by the regex class `[^@\s]` of `EMAIL_RE`. -/
def okChar (c : Char) : Bool := !(c = '@') && !(wsChar c)

/-- Python `str.strip()`: drop leading and trailing whitespace. -/
def pyStrip (s : String) : String :=
  String.mk (((s.toList.dropWhile wsChar).reverse.dropWhile wsChar).reverse)

/-- Python `str.lower()` (ASCII range). -/
def pyLower (s : String) : String := String.mk (s.toList.map Char.toLower)

/-- Core of `EMAIL_RE.match`: the string is `l ++ '@' ++ d` where `l` is a
nonempty run of `[^@\s]` characters, `d` consists of `[^@\s]` characters and
contains a dot that is neither its first nor its last character (this is
exactly when `[^@\s]+\.[^@\s]+` matches `d`, since `.` itself lies in the
class `[^@\s]`). -/
def emailCore (cs : List Char) : Bool :=
  let l := cs.takeWhile (fun c => !(c = '@'))
  let r := cs.dropWhile (fun c => !(c = '@'))
  match r with
  | [] => false
  | _ :: d =>
      !l.isEmpty && l.all okChar && !d.isEmpty && d.all okChar &&
        ((d.drop 1).dropLast.contains '.')

/-- `EMAIL_RE.match e` (source line 137): Python's `$` also matches just
before a single trailing newline, hence the second disjunct. -/
def email_re_match (s : String) : Bool :=
  emailCore s.toList ||
    (s.toList.getLast? = some '\n' && emailCore s.toList.dropLast)

/-- Auxiliary state machine for `re.split(r"[,\n;]+", text)`: `cur` is the
current fragment (reversed), `inRun` records whether the previous character
belonged to a delimiter run (so further delimiters extend the same
separator instead of producing empty fragments). -/
def splitRunsAux : List Char → List Char → Bool → List (List Char)
  | [], cur, _ => [cur.reverse]
  | c :: rest, cur, inRun =>
      if isDelim c then
        if inRun then splitRunsAux rest [] true
        else cur.reverse :: splitRunsAux rest [] true
      else splitRunsAux rest (c :: cur) false

/-- `re.split(r"[,\n;]+", text)`: fields between maximal delimiter runs,
with an empty field at an end when the text starts or ends with a
delimiter run (exactly Python's semantics). -/
def splitDelimRuns (cs : List Char) : List (List Char) := splitRunsAux cs [] false

/-- Structured counterpart of the log lines the source emits, one
constructor per f-string passed to `log_message`. -/
inductive LogEvent where
  /-- "Connecting to SMTP server..." (line 63) -/
  | connecting
  /-- "Logged in successfully!" (line 75) -/
  | loggedIn
  /-- "No recipient emails found. Aborting send." (line 79) -/
  | noRecipients
  /-- "Sent to {recipient} ({i}/{total})" (line 93) -/
  | sent (recipient : String) (i total : Nat)
  /-- "Failed to send to {recipient}: {e}" (line 95) -/
  | sendFailed (recipient : String) (err : String)
  /-- "Waiting {delay:.2f}s before next email..." (line 106) -/
  | waiting (delay : ℚ)
  /-- "All emails processed." (line 114) -/
  | allProcessed
  /-- "Error in send_bulk_emails: {e}" (line 116) -/
  | workerError (err : String)
  /-- "Warning: '{e}' doesn't look like a valid email address." (line 146) -/
  | parseWarning (entry : String)
  /-- "Loaded {n} receiver emails from textarea." (line 168) -/
  | loadedReceivers (count : Nat)
  /-- "Emails are being sent in background!" (line 173) -/
  | sendingBackground
  deriving DecidableEq

/-- The loop of `parse_receivers` (source lines 132-146) over the split
fragments, threading the `seen` set (modelled as the list of lower-cased
entries already emitted).  Returns the output list together with the
warning log events emitted along the way. -/
def parseLoop : List String → List String → List String × List LogEvent
  | [], _ => ([], [])
  | p :: ps, seen =>
      let e := pyStrip p
      if e = "" then parseLoop ps seen
      else if email_re_match e then
        if pyLower e ∈ seen then parseLoop ps seen
        else
          let rest := parseLoop ps (pyLower e :: seen)
          (e :: rest.1, rest.2)
      else
        if pyLower e ∈ seen then parseLoop ps seen
        else
          let rest := parseLoop ps (pyLower e :: seen)
          (e :: rest.1, LogEvent.parseWarning e :: rest.2)

/-- `parse_receivers` (source lines 121-147): empty input short-circuits to
`[]`; otherwise split on delimiter runs and run the dedup/validate loop.
The second component is the list of warning log events the source sends to
`log_message` while parsing. -/
def parse_receivers (text : String) : List String × List LogEvent :=
  if text = "" then ([], [])
  else parseLoop ((splitDelimRuns text.toList).map (fun cs => String.mk cs)) []

/-- The `settings` record consumed by the worker (source lines 17-27).
`min_delay`/`max_delay` hold the outcome of the `float(...)` conversion the
worker performs at lines 99-100: `some q` when the configured value converts,
`none` when `float` raises. -/
structure Settings where
  smtp_server : String
  smtp_port : Int
  sender_email : String
  password : String
  subject : String
  body : String
  min_delay : Option ℚ
  max_delay : Option ℚ
  receiver_list : List String

/-- The default `settings` dict of source lines 17-27. -/
def defaultSettings : Settings :=
  ⟨"smtp.gmail.com", 587, "", "", "Test Email from AirMailX Sender",
   "<html>Paste your HTML email template here</html>", some 2, some 5, []⟩

/-- Oracle for the underlying `smtplib` transport: for each protocol
operation, either it returns normally (`.ok`) or it raises an exception
carrying the given message (`.error`).  `ehlo2` is the `ehlo` reissued after
`starttls` (its failure is absorbed by the `except` at line 70 and is
observationally irrelevant).  `sendmail i r` is the outcome of the `i`-th
(1-based) `server.sendmail` call, addressed to the stripped recipient `r`.
`rand i` is the unit-interval value underlying the `random.uniform` call of
iteration `i` (`uniform(a, b) = a + (b - a) * rand`). -/
structure SmtpBehavior where
  connect : Except String Unit
  ehlo1 : Except String Unit
  starttls : Except String Unit
  ehlo2 : Except String Unit
  login : Except String Unit
  sendmail : Nat → String → Except String Unit
  quit : Except String Unit
  rand : Nat → ℚ

/-- Network operations the worker attempts on the transport; an attempted
operation is recorded whether or not it raises. -/
inductive NetAction where
  | connect
  | ehlo
  | starttls
  | login
  | sendAttempt (sender recipient : String)
  | quit
  deriving DecidableEq

/-- `random.uniform(a, b)` with underlying unit draw `u`. -/
def pyUniform (a b u : ℚ) : ℚ := a + (b - a) * u

/-- The delay computation of source lines 98-105: convert the configured
bounds with `float` (clamping `maxd` up to `mind` when `maxd < mind`) and
draw uniformly; if either conversion raises, fall back to `uniform(2, 5)`. -/
def drawDelay (s : Settings) (u : ℚ) : ℚ :=
  match s.min_delay, s.max_delay with
  | some mind, some maxd => pyUniform mind (if maxd < mind then mind else maxd) u
  | _, _ => pyUniform 2 5 u

/-- The per-recipient loop of source lines 82-107, iterating with 1-based
counter `i`.  Per recipient: strip, attempt `sendmail` (its exceptions are
caught at line 94 and logged), log the outcome, compute the delay, log the
wait and sleep.  Returns `(log events, attempted network actions, sleep
durations)`. -/
def sendLoop (s : Settings) (b : SmtpBehavior) (total : Nat) :
    Nat → List String → List LogEvent × List NetAction × List ℚ
  | _, [] => ([], [], [])
  | i, r :: rest =>
      let rcp := pyStrip r
      let outcome : LogEvent :=
        match b.sendmail i rcp with
        | .ok _ => .sent rcp i total
        | .error e => .sendFailed rcp e
      let d := drawDelay s (b.rand i)
      let next := sendLoop s b total (i + 1) rest
      (outcome :: .waiting d :: next.1,
       .sendAttempt s.sender_email rcp :: next.2.1,
       d :: next.2.2)

/-- Body of the outer `try` of `send_bulk_emails` (source lines 62-114).
The `Except` component is the exception, if any, propagating out of the
body towards the `except` handler at line 115: `connect`, the first `ehlo`
and `login` raise out of the body, `starttls`/second-`ehlo` failures are
absorbed at lines 67-72, per-recipient failures at lines 84-95, and `quit`
failures at lines 109-112. -/
def send_bulk_emails_body (s : Settings) (b : SmtpBehavior) :
    (List LogEvent × List NetAction × List ℚ) × Except String Unit :=
  let l0 : List LogEvent := [.connecting]
  match b.connect with
  | .error e => ((l0, [.connect], []), .error e)
  | .ok _ =>
    match b.ehlo1 with
    | .error e => ((l0, [.connect, .ehlo], []), .error e)
    | .ok _ =>
      let tlsActs : List NetAction :=
        match b.starttls with
        | .error _ => [.starttls]
        | .ok _ => [.starttls, .ehlo]
      match b.login with
      | .error e => ((l0, [.connect, .ehlo] ++ tlsActs ++ [.login], []), .error e)
      | .ok _ =>
        let l1 := l0 ++ [LogEvent.loggedIn]
        let acts1 : List NetAction := [.connect, .ehlo] ++ tlsActs ++ [.login]
        let total := s.receiver_list.length
        if total = 0 then
          ((l1 ++ [.noRecipients], acts1, []), .ok ())
        else
          let loop := sendLoop s b total 1 s.receiver_list
          ((l1 ++ loop.1 ++ [.allProcessed], acts1 ++ loop.2.1 ++ [.quit],
            loop.2.2), .ok ())

/-- Result of one worker run: the emitted log events, the attempted network
actions, the sleep durations, and the exception (if any) escaping the
worker's boundary uncaught. -/
structure RunResult where
  logs : List LogEvent
  acts : List NetAction
  sleeps : List ℚ
  uncaught : Option String

/-- `send_bulk_emails` (source lines 60-116): run the body under the outer
`try`; the `except Exception` handler at lines 115-116 turns any exception
raised out of the body into a single log line, and the function returns
normally in both cases. -/
def send_bulk_emails (s : Settings) (b : SmtpBehavior) : RunResult :=
  match send_bulk_emails_body s b with
  | (r, .ok _) => ⟨r.1, r.2.1, r.2.2, none⟩
  | (r, .error e) => ⟨r.1 ++ [.workerError e], r.2.1, r.2.2, none⟩

/-- The payload `API.send_emails` receives from the UI (source lines
153-165): each updatable key may be present or absent; a present delay field
carries the outcome of the later `float` conversion (see `Settings`).
`receiver_emails` is the raw textarea text (`new_settings.get("receiver_emails", "")`). -/
structure NewSettings where
  smtp_server : Option String
  smtp_port : Option Int
  sender_email : Option String
  password : Option String
  subject : Option String
  body : Option String
  min_delay : Option (Option ℚ)
  max_delay : Option (Option ℚ)
  receiver_emails : String

/-- The key-update loop of `API.send_emails` (source lines 160-162): each
allowed key present in the payload overwrites the stored setting verbatim
(no clamping or validation). -/
def updateSettings (st : Settings) (ns : NewSettings) : Settings :=
  ⟨ns.smtp_server.getD st.smtp_server,
   ns.smtp_port.getD st.smtp_port,
   ns.sender_email.getD st.sender_email,
   ns.password.getD st.password,
   ns.subject.getD st.subject,
   ns.body.getD st.body,
   ns.min_delay.getD st.min_delay,
   ns.max_delay.getD st.max_delay,
   st.receiver_list⟩

/-- `API.send_emails` up to the point where the worker thread is started
(source lines 153-175): update settings, parse the receiver text, store the
parsed list, and emit the two log lines.  Returns the settings the
background worker will run with, together with the log events emitted
synchronously. -/
def api_send_emails (st : Settings) (ns : NewSettings) : Settings × List LogEvent :=
  let st1 := updateSettings st ns
  let parsed := parse_receivers ns.receiver_emails
  let st2 : Settings :=
    ⟨st1.smtp_server, st1.smtp_port, st1.sender_email, st1.password,
     st1.subject, st1.body, st1.min_delay, st1.max_delay, parsed.1⟩
  (st2, parsed.2 ++ [LogEvent.loadedReceivers parsed.1.length,
                     LogEvent.sendingBackground])

/-- Discriminates the two per-recipient outcome log lines (lines 93 and 95). -/
def LogEvent.isOutcome : LogEvent → Bool
  | .sent _ _ _ => true
  | .sendFailed _ _ => true
  | _ => false

/-- Discriminates the three log lines with which a run can end (lines 79,
114 and 116). -/
def LogEvent.isTerminal : LogEvent → Bool
  | .noRecipients => true
  | .allProcessed => true
  | .workerError _ => true
  | _ => false

/-- Discriminates message-submission attempts among the network actions. -/
def NetAction.isSend : NetAction → Bool
  | .sendAttempt _ _ => true
  | _ => false

/-- Reference first-seen deduplication keyed by `key`: keep each element the
first time its key appears, in input order.  This is the specification-side
description of "deduplicates case-insensitively while preserving first-seen
order", to be compared with the source-side `parse_receivers`. -/
def dedupFirstBy (key : String → String) (l : List String) : List String :=
  match l with
  | [] => []
  | x :: xs => x :: dedupFirstBy key (xs.filter (fun y => decide (key y ≠ key x)))
termination_by l.length
decreasing_by
  simp only [List.length_cons]
  exact Nat.lt_succ_of_le (List.length_filter_le _ _)

/-- The nonempty stripped fragments of the input text, in input order (the
elements `parse_receivers` iterates over after its split, strip and
empty-skip steps). -/
def cleanParts (text : String) : List String :=
  ((splitDelimRuns text.toList).map (fun cs => pyStrip (String.mk cs))).filter
    (fun e => decide (e ≠ ""))

/-- Transport behavior in which every operation returns normally and every
unit draw is `0`. -/
def behOk : SmtpBehavior :=
  ⟨.ok (), .ok (), .ok (), .ok (), .ok (), fun _ _ => .ok (), .ok (), fun _ => 0⟩

/-- Transport behavior whose `login` raises (credential rejected) and whose
other operations return normally. -/
def behAuthFail : SmtpBehavior :=
  ⟨.ok (), .ok (), .ok (), .ok (), .error "535 authentication failed",
   fun _ _ => .ok (), .ok (), fun _ => 0⟩

/-- Transport behavior in which exactly the second `sendmail` call raises. -/
def behSecondSendFails : SmtpBehavior :=
  ⟨.ok (), .ok (), .ok (), .ok (), .ok (),
   fun i _ => if i = 2 then .error "550 rejected" else .ok (), .ok (), fun _ => 0⟩

/-- A three-recipient configuration. -/
def cfgThree : Settings :=
  ⟨"h", 587, "me@x.com", "pw", "s", "b", some 2, some 5,
   ["a@x.com", "b@x.com", "c@x.com"]⟩

/-- A one-recipient configuration with delay bounds 2 and 5. -/
def cfgOne : Settings :=
  ⟨"h", 587, "me@x.com", "pw", "s", "b", some 2, some 5, ["a@x.com"]⟩

/-- A one-recipient configuration whose delay bounds are inverted
(min 5, max 2). -/
def cfgInverted : Settings :=
  ⟨"h", 587, "me@x.com", "pw", "s", "b", some 5, some 2, ["a@x.com"]⟩

/-- A one-recipient configuration whose `min_delay` does not convert to a
number (`float` raises on it). -/
def cfgBadDelay : Settings :=
  ⟨"h", 587, "me@x.com", "pw", "s", "b", none, some 5, ["a@x.com"]⟩

/-- An `API.send_emails` payload carrying inverted delay bounds
(min 5, max 2) and no recipients. -/
def nsInverted : NewSettings :=
  ⟨none, none, none, none, none, none, some (some 5), some (some 2), ""⟩

theorem sendLoop_sleeps_length (s : Settings) (b : SmtpBehavior) (total : Nat)
    (rs : List String) : ∀ i, (sendLoop s b total i rs).2.2.length = rs.length := by
  induction rs with
  | nil => intro i; rfl
  | cons r rest ih => intro i; simp [sendLoop, ih]

theorem getLast?_cons_append_singleton {α : Type} (x : α) (l : List α) (a : α) :
    (x :: (l ++ [a])).getLast? = some a := by
  rw [← List.cons_append, List.getLast?_concat]

/-- C2: for every configuration and every transport behavior, the worker
returns normally with no uncaught exception, and its log trace ends in a
terminal log line (the no-recipients line, the all-processed line, or the
single error line produced by the top-level handler). -/
theorem workerNeverRaises (s : Settings) (b : SmtpBehavior) :
    (send_bulk_emails s b).uncaught = none ∧
    ∃ ev, (send_bulk_emails s b).logs.getLast? = some ev ∧ ev.isTerminal = true := by
  rcases hc : b.connect with ec | uc
  · exact ⟨by simp [send_bulk_emails, send_bulk_emails_body, hc],
      .workerError ec, by simp [send_bulk_emails, send_bulk_emails_body, hc], rfl⟩
  rcases he : b.ehlo1 with ee | ue
  · exact ⟨by simp [send_bulk_emails, send_bulk_emails_body, hc, he],
      .workerError ee, by simp [send_bulk_emails, send_bulk_emails_body, hc, he], rfl⟩
  rcases hl : b.login with el | ul
  · rcases ht : b.starttls with et | ut <;>
      exact ⟨by simp [send_bulk_emails, send_bulk_emails_body, hc, he, hl, ht],
        .workerError el,
        by simp [send_bulk_emails, send_bulk_emails_body, hc, he, hl, ht], rfl⟩
  rcases hr : s.receiver_list with _ | ⟨r, rs⟩
  · rcases ht : b.starttls with et | ut <;>
      exact ⟨by simp [send_bulk_emails, send_bulk_emails_body, hc, he, hl, ht, hr],
        .noRecipients,
        by simp [send_bulk_emails, send_bulk_emails_body, hc, he, hl, ht, hr], rfl⟩
  · rcases ht : b.starttls with et | ut <;>
      exact ⟨by simp [send_bulk_emails, send_bulk_emails_body, hc, he, hl, ht, hr],
        .allProcessed,
        by simp [send_bulk_emails, send_bulk_emails_body, hc, he, hl, ht, hr,
          getLast?_cons_append_singleton], rfl⟩

/-- C4: if authentication fails (and connect and the first EHLO succeed),
the run produces exactly the connecting line followed by one fatal error
line, attempts no message submission, sleeps never, and returns without an
uncaught exception. -/
theorem authFailureAbortsBatch (s : Settings) (b : SmtpBehavior) (e : String)
    (hc : b.connect = .ok ()) (he : b.ehlo1 = .ok ()) (hl : b.login = .error e) :
    (send_bulk_emails s b).logs = [.connecting, .workerError e] ∧
    (send_bulk_emails s b).acts.filter NetAction.isSend = [] ∧
    (send_bulk_emails s b).sleeps = [] ∧
    (send_bulk_emails s b).uncaught = none := by
  rcases ht : b.starttls with et | ut <;>
    simp [send_bulk_emails, send_bulk_emails_body, hc, he, hl, ht, NetAction.isSend]

/-- Witness for C4 at a concrete configuration and a concrete behavior whose
`login` raises. -/
theorem authFailureAbortsBatchWitness :
    (send_bulk_emails defaultSettings behAuthFail).logs =
      [.connecting, .workerError "535 authentication failed"] ∧
    (send_bulk_emails defaultSettings behAuthFail).acts.filter NetAction.isSend = [] ∧
    (send_bulk_emails defaultSettings behAuthFail).sleeps = [] ∧
    (send_bulk_emails defaultSettings behAuthFail).uncaught = none :=
  authFailureAbortsBatch defaultSettings behAuthFail "535 authentication failed"
    rfl rfl rfl

/-- C3 counterexample: with an empty recipient list and a transport that
accepts everything, the run nevertheless opens the SMTP connection and
performs the login, contradicting "no SMTP connection is opened, no login is
performed": the source connects and authenticates before checking
emptiness. -/
theorem emptyListStillConnects :
    defaultSettings.receiver_list = [] ∧
    NetAction.connect ∈ (send_bulk_emails defaultSettings behOk).acts ∧
    NetAction.login ∈ (send_bulk_emails defaultSettings behOk).acts := by decide

/-- C3 amended: with an empty recipient list, once connect, EHLO and login
have succeeded the run ends immediately with the no-recipients log line, and
no send attempt, no quit and no sleep occur — but a connection and a login
are attempted first. -/
theorem emptyListAbortsAfterLogin (s : Settings) (b : SmtpBehavior)
    (hr : s.receiver_list = [])
    (hc : b.connect = .ok ()) (he : b.ehlo1 = .ok ()) (hl : b.login = .ok ()) :
    (send_bulk_emails s b).logs = [.connecting, .loggedIn, .noRecipients] ∧
    (send_bulk_emails s b).acts.filter NetAction.isSend = [] ∧
    NetAction.quit ∉ (send_bulk_emails s b).acts ∧
    NetAction.connect ∈ (send_bulk_emails s b).acts ∧
    NetAction.login ∈ (send_bulk_emails s b).acts ∧
    (send_bulk_emails s b).sleeps = [] := by
  rcases ht : b.starttls with et | ut <;>
    simp [send_bulk_emails, send_bulk_emails_body, hc, he, hl, ht, hr, NetAction.isSend]

/-- Witness for the amended C3 at a concrete empty-list configuration and
all-accepting behavior. -/
theorem emptyListAbortsAfterLoginWitness :
    (send_bulk_emails defaultSettings behOk).logs =
      [.connecting, .loggedIn, .noRecipients] ∧
    (send_bulk_emails defaultSettings behOk).acts.filter NetAction.isSend = [] ∧
    NetAction.quit ∉ (send_bulk_emails defaultSettings behOk).acts ∧
    NetAction.connect ∈ (send_bulk_emails defaultSettings behOk).acts ∧
    NetAction.login ∈ (send_bulk_emails defaultSettings behOk).acts ∧
    (send_bulk_emails defaultSettings behOk).sleeps = [] :=
  emptyListAbortsAfterLogin defaultSettings behOk rfl rfl rfl rfl

/-- C1: with three recipients of which exactly the second fails transport
submission, the outcome log lines are success(1/3), failure(2 with the error
detail), success(3/3) in that order, all three submissions are attempted,
and the run ends with the completion log: one bad recipient never aborts the
batch. -/
theorem sendFailureContinuesBatch (s : Settings) (b : SmtpBehavior)
    (r1 r2 r3 e : String)
    (hr : s.receiver_list = [r1, r2, r3])
    (hc : b.connect = .ok ()) (he : b.ehlo1 = .ok ()) (hl : b.login = .ok ())
    (h1 : b.sendmail 1 (pyStrip r1) = .ok ())
    (h2 : b.sendmail 2 (pyStrip r2) = .error e)
    (h3 : b.sendmail 3 (pyStrip r3) = .ok ()) :
    (send_bulk_emails s b).logs.filter LogEvent.isOutcome =
      [.sent (pyStrip r1) 1 3, .sendFailed (pyStrip r2) e,
       .sent (pyStrip r3) 3 3] ∧
    ((send_bulk_emails s b).acts.filter NetAction.isSend).length = 3 ∧
    (send_bulk_emails s b).logs.getLast? = some .allProcessed := by
  rcases ht : b.starttls with et | ut <;>
    simp [send_bulk_emails, send_bulk_emails_body, sendLoop, hr, hc, he, hl, ht,
      h1, h2, h3, LogEvent.isOutcome, NetAction.isSend,
      ← List.append_assoc, List.getLast?_concat]

/-- Witness for C1 at a concrete three-recipient configuration and a
behavior failing exactly the second submission. -/
theorem sendFailureContinuesBatchWitness :
    (send_bulk_emails cfgThree behSecondSendFails).logs.filter LogEvent.isOutcome =
      [.sent (pyStrip "a@x.com") 1 3, .sendFailed (pyStrip "b@x.com") "550 rejected",
       .sent (pyStrip "c@x.com") 3 3] ∧
    ((send_bulk_emails cfgThree behSecondSendFails).acts.filter NetAction.isSend).length = 3 ∧
    (send_bulk_emails cfgThree behSecondSendFails).logs.getLast? = some .allProcessed :=
  sendFailureContinuesBatch cfgThree behSecondSendFails
    "a@x.com" "b@x.com" "c@x.com" "550 rejected" rfl rfl rfl rfl rfl rfl rfl

theorem drawDelay_inverted (s : Settings) (m M u : ℚ)
    (hmin : s.min_delay = some m) (hmax : s.max_delay = some M) (hlt : M < m) :
    drawDelay s u = m := by
  simp [drawDelay, hmin, hmax, if_pos hlt, pyUniform]

theorem drawDelay_straight (s : Settings) (m M u : ℚ)
    (hmin : s.min_delay = some m) (hmax : s.max_delay = some M) (hmM : m ≤ M) :
    drawDelay s u = m + (M - m) * u := by
  simp [drawDelay, hmin, hmax, if_neg (not_lt.mpr hmM), pyUniform]

theorem drawDelay_fallback (s : Settings) (u : ℚ)
    (hbad : s.min_delay = none ∨ s.max_delay = none) :
    drawDelay s u = 2 + 3 * u := by
  rcases hbad with h | h
  · rcases h2 : s.max_delay with _ | q <;> norm_num [drawDelay, h, h2, pyUniform]
  · rcases h2 : s.min_delay with _ | q <;> norm_num [drawDelay, h, h2, pyUniform]

theorem sendLoop_sleeps_inverted (s : Settings) (b : SmtpBehavior) (total : Nat)
    (m M : ℚ) (hmin : s.min_delay = some m) (hmax : s.max_delay = some M)
    (hlt : M < m) :
    ∀ (rs : List String) (i : Nat),
      (sendLoop s b total i rs).2.2 = List.replicate rs.length m := by
  intro rs
  induction rs with
  | nil => intro i; rfl
  | cons r rest ih =>
      intro i
      simp [sendLoop, ih, drawDelay_inverted s m M _ hmin hmax hlt, List.replicate_succ]

theorem sendLoop_sleeps_bounds (s : Settings) (b : SmtpBehavior) (total : Nat)
    (m M : ℚ) (hmin : s.min_delay = some m) (hmax : s.max_delay = some M)
    (hmM : m ≤ M) (hu : ∀ n, 0 ≤ b.rand n ∧ b.rand n ≤ 1) :
    ∀ (rs : List String) (i : Nat), ∀ d ∈ (sendLoop s b total i rs).2.2,
      m ≤ d ∧ d ≤ M := by
  intro rs
  induction rs with
  | nil => intro i d hd; simp [sendLoop] at hd
  | cons r rest ih =>
      intro i d hd
      simp only [sendLoop, List.mem_cons] at hd
      rcases hd with hd | hd
      · subst hd
        rw [drawDelay_straight s m M _ hmin hmax hmM]
        have h0 := (hu i).1
        have h1 := (hu i).2
        constructor <;> nlinarith [mul_nonneg (sub_nonneg.mpr hmM) h0]
      · exact ih (i + 1) d hd

theorem sendLoop_sleeps_fallback (s : Settings) (b : SmtpBehavior) (total : Nat)
    (hbad : s.min_delay = none ∨ s.max_delay = none)
    (hu : ∀ n, 0 ≤ b.rand n ∧ b.rand n ≤ 1) :
    ∀ (rs : List String) (i : Nat), ∀ d ∈ (sendLoop s b total i rs).2.2,
      (2 : ℚ) ≤ d ∧ d ≤ 5 := by
  intro rs
  induction rs with
  | nil => intro i d hd; simp [sendLoop] at hd
  | cons r rest ih =>
      intro i d hd
      simp only [sendLoop, List.mem_cons] at hd
      rcases hd with hd | hd
      · subst hd
        rw [drawDelay_fallback s _ hbad]
        have h0 := (hu i).1
        have h1 := (hu i).2
        constructor <;> nlinarith
      · exact ih (i + 1) d hd

/-- C6 counterexample: feeding `API.send_emails` a payload with
`min_delay = 5` and `max_delay = 2` stores the inverted bounds verbatim: the
built configuration has max delay strictly below min delay, so no clamping
is enforced at configuration build time. -/
theorem configBuildNoClamp :
    (api_send_emails defaultSettings nsInverted).1.min_delay = some (5 : ℚ) ∧
    (api_send_emails defaultSettings nsInverted).1.max_delay = some (2 : ℚ) ∧
    (api_send_emails defaultSettings nsInverted).1.max_delay.getD 0 <
      (api_send_emails defaultSettings nsInverted).1.min_delay.getD 0 := by
  decide

/-- C6 amended: the clamp lives in the worker, applied at each delay draw
(not at configuration build time): whenever the stored max delay is below
the min delay, the effective max is clamped to the min, so every inter-send
delay equals exactly the min delay. -/
theorem clampAppliedAtDrawTime (s : Settings) (b : SmtpBehavior) (m M : ℚ)
    (hmin : s.min_delay = some m) (hmax : s.max_delay = some M) (hlt : M < m)
    (hc : b.connect = .ok ()) (he : b.ehlo1 = .ok ()) (hl : b.login = .ok ()) :
    (send_bulk_emails s b).sleeps = List.replicate s.receiver_list.length m := by
  rcases ht : b.starttls with et | ut <;>
    rcases hr : s.receiver_list with _ | ⟨r, rs⟩ <;>
      simp [send_bulk_emails, send_bulk_emails_body, hc, he, hl, ht, hr,
        sendLoop_sleeps_inverted s b _ m M hmin hmax hlt]

/-- Witness for the amended C6 at a concrete inverted configuration
(min 5, max 2): the single drawn delay is exactly 5. -/
theorem clampAppliedAtDrawTimeWitness :
    (send_bulk_emails cfgInverted behOk).sleeps =
      List.replicate cfgInverted.receiver_list.length 5 :=
  clampAppliedAtDrawTime cfgInverted behOk 5 2 rfl rfl (by norm_num) rfl rfl rfl

/-- C9: with a non-empty recipient list, convertible delay bounds
`m ≤ M`, and unit draws in `[0, 1]`, the worker sleeps once per recipient
(including after the last one) and every sleep duration lies in `[m, M]`. -/
theorem sleepAfterEveryRecipient (s : Settings) (b : SmtpBehavior) (m M : ℚ)
    (hmin : s.min_delay = some m) (hmax : s.max_delay = some M) (hmM : m ≤ M)
    (hu : ∀ n, 0 ≤ b.rand n ∧ b.rand n ≤ 1)
    (hr : s.receiver_list ≠ [])
    (hc : b.connect = .ok ()) (he : b.ehlo1 = .ok ()) (hl : b.login = .ok ()) :
    (send_bulk_emails s b).sleeps.length = s.receiver_list.length ∧
    (send_bulk_emails s b).sleeps.all (fun d => decide (m ≤ d ∧ d ≤ M)) = true := by
  rcases hrr : s.receiver_list with _ | ⟨r, rs⟩
  · exact absurd hrr hr
  · have hsl : (send_bulk_emails s b).sleeps =
        (sendLoop s b (r :: rs).length 1 (r :: rs)).2.2 := by
      rcases ht : b.starttls with et | ut <;>
        simp [send_bulk_emails, send_bulk_emails_body, hc, he, hl, ht, hrr]
    constructor
    · rw [hsl, sendLoop_sleeps_length]
    · rw [hsl, List.all_eq_true]
      intro d hd
      have := sendLoop_sleeps_bounds s b _ m M hmin hmax hmM hu (r :: rs) 1 d hd
      simpa using this

/-- Witness for C9 at a one-recipient configuration with bounds 2 and 5
and all-zero unit draws. -/
theorem sleepAfterEveryRecipientWitness :
    (send_bulk_emails cfgOne behOk).sleeps.length = cfgOne.receiver_list.length ∧
    (send_bulk_emails cfgOne behOk).sleeps.all
      (fun d => decide ((2 : ℚ) ≤ d ∧ d ≤ 5)) = true :=
  sleepAfterEveryRecipient cfgOne behOk 2 5 rfl rfl (by norm_num)
    (by intro n; constructor <;> norm_num [behOk]) (by decide) rfl rfl rfl

/-- C10: if `min_delay` or `max_delay` does not convert to a number, the
worker neither fails nor skips the delay: it still sleeps once per
recipient, with each delay drawn from the fallback range `[2, 5]`, and the
batch runs to its completion log with no uncaught exception. -/
theorem delayFallbackOnBadConfig (s : Settings) (b : SmtpBehavior)
    (hbad : s.min_delay = none ∨ s.max_delay = none)
    (hu : ∀ n, 0 ≤ b.rand n ∧ b.rand n ≤ 1)
    (hr : s.receiver_list ≠ [])
    (hc : b.connect = .ok ()) (he : b.ehlo1 = .ok ()) (hl : b.login = .ok ()) :
    (send_bulk_emails s b).sleeps.length = s.receiver_list.length ∧
    (send_bulk_emails s b).sleeps.all
      (fun d => decide ((2 : ℚ) ≤ d ∧ d ≤ 5)) = true ∧
    (send_bulk_emails s b).logs.getLast? = some .allProcessed ∧
    (send_bulk_emails s b).uncaught = none := by
  rcases hrr : s.receiver_list with _ | ⟨r, rs⟩
  · exact absurd hrr hr
  · have hsl : (send_bulk_emails s b).sleeps =
        (sendLoop s b (r :: rs).length 1 (r :: rs)).2.2 := by
      rcases ht : b.starttls with et | ut <;>
        simp [send_bulk_emails, send_bulk_emails_body, hc, he, hl, ht, hrr]
    refine ⟨?_, ?_, ?_, ?_⟩
    · rw [hsl, sendLoop_sleeps_length]
    · rw [hsl, List.all_eq_true]
      intro d hd
      have := sendLoop_sleeps_fallback s b _ hbad hu (r :: rs) 1 d hd
      simpa using this
    · rcases ht : b.starttls with et | ut <;>
        simp [send_bulk_emails, send_bulk_emails_body, hc, he, hl, ht, hrr,
          getLast?_cons_append_singleton]
    · rcases ht : b.starttls with et | ut <;>
        simp [send_bulk_emails, send_bulk_emails_body, hc, he, hl, ht, hrr]

/-- Witness for C10 at a one-recipient configuration whose `min_delay` does
not convert. -/
theorem delayFallbackOnBadConfigWitness :
    (send_bulk_emails cfgBadDelay behOk).sleeps.length =
      cfgBadDelay.receiver_list.length ∧
    (send_bulk_emails cfgBadDelay behOk).sleeps.all
      (fun d => decide ((2 : ℚ) ≤ d ∧ d ≤ 5)) = true ∧
    (send_bulk_emails cfgBadDelay behOk).logs.getLast? = some .allProcessed ∧
    (send_bulk_emails cfgBadDelay behOk).uncaught = none :=
  delayFallbackOnBadConfig cfgBadDelay behOk (Or.inl rfl)
    (by intro n; constructor <;> norm_num [behOk]) (by decide) rfl rfl rfl

/-- C7: parsing the example text keeps one representative per
case-insensitive class in first-seen order, retains the malformed
`bad-entry` in the output, and flags it suspect: the shape check rejects it
(and a warning log event is emitted for it), while the two retained
addresses pass the shape check. -/
theorem parseExampleFlags :
    parse_receivers "a@b.com, a@B.com; c@d.com\nbad-entry" =
      (["a@b.com", "c@d.com", "bad-entry"], [LogEvent.parseWarning "bad-entry"]) ∧
    email_re_match "a@b.com" = true ∧
    email_re_match "c@d.com" = true ∧
    email_re_match "bad-entry" = false := by
  decide

/-- C8 counterexample: parsing is not free of side effects: on the input
`"bad-entry"` the source calls `log_message`, mutating the UI log (and
writing to the console); in the embedding the emitted log-event list is
nonempty. -/
theorem parseEmitsWarningLog :
    (parse_receivers "bad-entry").2 = [LogEvent.parseWarning "bad-entry"] ∧
    (parse_receivers "bad-entry").2 ≠ [] := by
  decide

theorem parseLoop_snd_eq (ps : List String) :
    ∀ seen, (parseLoop ps seen).2 =
      ((parseLoop ps seen).1.filter
        (fun e => !email_re_match e)).map LogEvent.parseWarning := by
  induction ps with
  | nil => intro seen; rfl
  | cons p ps ih =>
      intro seen
      by_cases h1 : pyStrip p = ""
      · simp [parseLoop, h1, ih]
      · by_cases h2 : email_re_match (pyStrip p) = true
        · by_cases h3 : pyLower (pyStrip p) ∈ seen <;>
            simp [parseLoop, h1, h2, h3, ih]
        · by_cases h3 : pyLower (pyStrip p) ∈ seen <;>
            simp [parseLoop, h1, h2, h3, ih]

/-- C8 amended: the returned list is a deterministic function of the input
text and the parser touches no network, but it is not side-effect free: it
emits exactly one warning log event per suspect output entry (the entries
failing the shape check), in output order, and nothing else. -/
theorem parseWarningsExactlySuspects (text : String) :
    (parse_receivers text).2 =
      ((parse_receivers text).1.filter
        (fun e => !email_re_match e)).map LogEvent.parseWarning := by
  by_cases ht : text = "" <;> simp [parse_receivers, ht, parseLoop_snd_eq]

theorem filter_notMem_cons (a : String) (seen : List String) (L : List String) :
    L.filter (fun y => decide (pyLower y ∉ a :: seen)) =
      (L.filter (fun y => decide (pyLower y ∉ seen))).filter
        (fun y => decide (pyLower y ≠ a)) := by
  rw [List.filter_filter]
  apply List.filter_congr
  intro x _
  by_cases h1 : pyLower x = a <;> by_cases h2 : pyLower x ∈ seen <;>
    simp [h1, h2]

theorem dedupFirstBy_mem_aux (key : String → String) :
    ∀ (n : Nat) (l : List String), l.length ≤ n →
      ∀ y ∈ dedupFirstBy key l, y ∈ l := by
  intro n
  induction n with
  | zero =>
      intro l hl y hy
      have hnil : l = [] := List.eq_nil_of_length_eq_zero (Nat.le_zero.mp hl)
      subst hnil
      simp [dedupFirstBy] at hy
  | succ n ih =>
      intro l hl y hy
      rcases l with _ | ⟨x, xs⟩
      · simp [dedupFirstBy] at hy
      · have hxs : xs.length ≤ n := Nat.le_of_succ_le_succ (by simpa using hl)
        rw [dedupFirstBy] at hy
        rcases List.mem_cons.mp hy with h | h
        · exact h ▸ List.mem_cons_self x xs
        · have hmem := ih _ (le_trans (List.length_filter_le _ _) hxs) y h
          exact List.mem_cons_of_mem x (List.mem_of_mem_filter hmem)

theorem dedupFirstBy_subset (key : String → String) (l : List String)
    (y : String) (hy : y ∈ dedupFirstBy key l) : y ∈ l :=
  dedupFirstBy_mem_aux key l.length l le_rfl y hy

theorem dedupFirstBy_pairwise_aux (key : String → String) :
    ∀ (n : Nat) (l : List String), l.length ≤ n →
      (dedupFirstBy key l).Pairwise (fun a b => key a ≠ key b) := by
  intro n
  induction n with
  | zero =>
      intro l hl
      have hnil : l = [] := List.eq_nil_of_length_eq_zero (Nat.le_zero.mp hl)
      subst hnil
      simp [dedupFirstBy]
  | succ n ih =>
      intro l hl
      rcases l with _ | ⟨x, xs⟩
      · simp [dedupFirstBy]
      · have hxs : xs.length ≤ n := Nat.le_of_succ_le_succ (by simpa using hl)
        rw [dedupFirstBy]
        refine List.Pairwise.cons ?_ (ih _ (le_trans (List.length_filter_le _ _) hxs))
        intro b hb
        have hbf := dedupFirstBy_subset key _ b hb
        have hne : key b ≠ key x := by simpa using List.of_mem_filter hbf
        exact hne.symm

theorem dedupFirstBy_pairwise (key : String → String) (l : List String) :
    (dedupFirstBy key l).Pairwise (fun a b => key a ≠ key b) :=
  dedupFirstBy_pairwise_aux key l.length l le_rfl

theorem parseLoop_fst_eq (ps : List String) :
    ∀ seen, (parseLoop ps seen).1 =
      dedupFirstBy pyLower
        (((ps.map pyStrip).filter (fun e => decide (e ≠ ""))).filter
          (fun e => decide (pyLower e ∉ seen))) := by
  induction ps with
  | nil => intro seen; simp [parseLoop, dedupFirstBy]
  | cons p ps ih =>
      intro seen
      by_cases h1 : pyStrip p = ""
      · simp [parseLoop, h1, ih]
      · by_cases h3 : pyLower (pyStrip p) ∈ seen
        · by_cases h2 : email_re_match (pyStrip p) = true <;>
            simp [parseLoop, h1, h2, h3, ih]
        · have main : (parseLoop (p :: ps) seen).1 =
              pyStrip p :: (parseLoop ps (pyLower (pyStrip p) :: seen)).1 := by
            by_cases h2 : email_re_match (pyStrip p) = true <;>
              simp [parseLoop, h1, h2, h3]
          rw [main, ih, filter_notMem_cons]
          have hcons : (((p :: ps).map pyStrip).filter
                (fun e => decide (e ≠ ""))).filter
                (fun e => decide (pyLower e ∉ seen)) =
              pyStrip p :: ((ps.map pyStrip).filter
                (fun e => decide (e ≠ ""))).filter
                (fun e => decide (pyLower e ∉ seen)) := by
            simp [List.filter_cons, h1, h3]
          rw [hcons, dedupFirstBy]

/-- C5: for every input text, the parser output has no two entries equal
case-insensitively, and it equals the reference first-seen deduplication
(keyed on the lower-cased entry) of the stripped nonempty fragments in
input order: each output entry is the first occurrence of its class, and
relative first-occurrence order is preserved. -/
theorem parseDedupFirstOrder (text : String) :
    (parse_receivers text).1.Pairwise (fun a b => pyLower a ≠ pyLower b) ∧
    (parse_receivers text).1 = dedupFirstBy pyLower (cleanParts text) := by
  have h2 : (parse_receivers text).1 = dedupFirstBy pyLower (cleanParts text) := by
    by_cases ht : text = ""
    · subst ht
      have hc : cleanParts "" = [] := rfl
      rw [hc]
      simp [parse_receivers, dedupFirstBy]
    · simp only [parse_receivers, if_neg ht]
      rw [parseLoop_fst_eq]
      have hnil : ∀ L : List String,
          L.filter (fun e => decide (pyLower e ∉ ([] : List String))) = L := by
        intro L
        exact List.filter_eq_self.mpr (fun a _ => by simp)
      rw [hnil]
      simp [cleanParts, List.map_map, Function.comp_def]
  refine ⟨?_, h2⟩
  rw [h2]
  exact dedupFirstBy_pairwise pyLower (cleanParts text)
